import Mathlib

/-!
Verification of the event-scraper pipeline (src/scraper.py) against its
specification. The Python source is shallowly embedded: strings are Lean
`String`s manipulated through character lists, `datetime` instants are
timezone-aware UTC values modelled by components plus an epoch-seconds view,
the Firestore collections are lists carried in an explicit `Store`, and the
per-candidate loop of `scrape_site_with_playwright` is a function from a
candidate and a store to an outcome, a new store and a trace of the pipeline
states reached. Line numbers in doc comments refer to src/scraper.py.
-/

/-! ## String primitives (Python string methods) -/

/-- Leading/trailing-whitespace strip on a character list (Python `str.strip()`). -/
def stripL (l : List Char) : List Char :=
  ((l.dropWhile Char.isWhitespace).reverse.dropWhile Char.isWhitespace).reverse

/-- Python `str.strip()`. -/
def pyStrip (s : String) : String := ⟨stripL s.data⟩

/-- Lower-casing character by character (Python `str.lower()` on ASCII text). -/
def lowerStr (s : String) : String := ⟨s.data.map Char.toLower⟩

/-- `startsWithCh hay pre` is true iff `pre` is a leading segment of `hay`. -/
def startsWithCh : List Char → List Char → Bool
  | _, [] => true
  | [], _ :: _ => false
  | c :: t, p :: ps => c == p && startsWithCh t ps

/-- `strContainsL hay pat` is true iff `pat` occurs contiguously inside `hay`
(Python's `pat in hay`). -/
def strContainsL : List Char → List Char → Bool
  | [], pat => pat.isEmpty
  | c :: t, pat => startsWithCh (c :: t) pat || strContainsL t pat

/-- Python's substring test `pat in hay` on strings. -/
def strContains (hay pat : String) : Bool := strContainsL hay.data pat.data

/-- Python `hay.startswith(pre)` on strings. -/
def startsWithS (hay pre : String) : Bool := startsWithCh hay.data pre.data

/-- Python `hay.replace(pat, rep)`: replace every non-overlapping, leftmost
occurrence of `pat`. Structural recursion on a fuel that starts at the input's
length (each step consumes at least one character when the pattern is
non-empty, so the fuel never runs out). -/
def replaceAllAux (pat rep : List Char) : Nat → List Char → List Char
  | _, [] => []
  | 0, l => l
  | fuel + 1, c :: t =>
    if pat ≠ [] ∧ startsWithCh (c :: t) pat then
      rep ++ replaceAllAux pat rep fuel ((c :: t).drop pat.length)
    else
      c :: replaceAllAux pat rep fuel t

def replaceAllL (pat rep l : List Char) : List Char := replaceAllAux pat rep l.length l

/-- Python `s.replace(pat, rep)` on strings. -/
def strReplace (s pat rep : String) : String := ⟨replaceAllL pat.data rep.data s.data⟩

/-- Python `s.split(sep)` for a non-empty separator: structural recursion on a
length fuel, like `replaceAllAux`. -/
def splitOnAuxL (sep : List Char) : Nat → List Char → List Char → List (List Char)
  | _, acc, [] => [acc.reverse]
  | 0, acc, l => [acc.reverse ++ l]
  | fuel + 1, acc, c :: t =>
    if sep ≠ [] ∧ startsWithCh (c :: t) sep then
      acc.reverse :: splitOnAuxL sep fuel [] ((c :: t).drop sep.length)
    else
      splitOnAuxL sep fuel (c :: acc) t

/-- Python `s.split(",")` (line 382). -/
def splitCommas (s : String) : List String :=
  (splitOnAuxL [','] s.data.length [] s.data).map fun l => ⟨l⟩

/-! ## The scraper's own string helpers and filters -/

/-- `normalize_string` (line 27): `s.strip().lower()`. -/
def normalize_string (s : String) : String := lowerStr (pyStrip s)

/-- `ENJOYMENT_CATEGORIES` (line 23). -/
def ENJOYMENT_CATEGORIES : List String :=
  ["party", "trip", "tour", "concert", "festival", "brunch"]

/-- `is_enjoyment_event` (lines 72-74): some keyword of the fixed set occurs in
the lowercased `f"{event_name} {description}"` (name, a space, description). -/
def is_enjoyment_event (event_name : String) (description : String := "") : Bool :=
  ENJOYMENT_CATEGORIES.any fun cat =>
    strContains (lowerStr (event_name ++ " " ++ description)) cat

/-! ## Dates and times -/

/-- A calendar date, as produced by `datetime.date.fromisoformat`. -/
structure IsoDate where
  year : Int
  month : Int
  day : Int
deriving DecidableEq

/-- A time of day (hour, minute), as produced by `datetime.time`; the parsed
times of this pipeline never carry seconds. -/
structure TimeOfDay where
  hour : Int
  minute : Int
deriving DecidableEq

/-- A timezone-aware instant at UTC (the code attaches `tzinfo=datetime.UTC`
to every datetime it produces); seconds are always zero in this pipeline. -/
structure PyDateTime where
  year : Int
  month : Int
  day : Int
  hour : Int
  minute : Int
deriving DecidableEq

def midnightT : TimeOfDay := ⟨0, 0⟩

/-- `datetime.datetime.combine(base_date, time_obj, tzinfo=datetime.UTC)`. -/
def combine (d : IsoDate) (t : TimeOfDay) : PyDateTime :=
  ⟨d.year, d.month, d.day, t.hour, t.minute⟩

def isLeapYear (y : Int) : Bool :=
  (Int.emod y 4 == 0 && Int.emod y 100 != 0) || Int.emod y 400 == 0

def daysInMonth (y m : Int) : Int :=
  if m == 2 then (if isLeapYear y then 29 else 28)
  else if m == 4 || m == 6 || m == 9 || m == 11 then 30
  else 31

/-- Days from 1970-01-01 to the civil date y-m-d (the standard days-from-civil
computation, matching Python's proleptic Gregorian `datetime` arithmetic). -/
def daysFromCivil (y m d : Int) : Int :=
  let y' := if m ≤ 2 then y - 1 else y
  let era := Int.fdiv y' 400
  let yoe := y' - era * 400
  let mp := Int.emod (m + 9) 12
  let doy := Int.fdiv (153 * mp + 2) 5 + d - 1
  let doe := yoe * 365 + Int.fdiv yoe 4 - Int.fdiv yoe 100 + doy
  era * 146097 + doe - 719468

/-- Seconds since the Unix epoch of a UTC instant. -/
def toTimestamp (dt : PyDateTime) : Int :=
  86400 * daysFromCivil dt.year dt.month dt.day + 3600 * dt.hour + 60 * dt.minute

/-- `is_upcoming_event` (lines 76-79): `(date_obj - now).days >= 0`.
`timedelta.days` floors the difference towards minus infinity (`Int.fdiv`);
the current instant `now` is seconds since the epoch at UTC
(`datetime.datetime.now(datetime.UTC)`). -/
def is_upcoming_event (date_obj : PyDateTime) (now : Int) : Bool :=
  decide (0 ≤ Int.fdiv (toTimestamp date_obj - now) 86400)

/-! ## strptime

The scraper parses dates with `datetime.datetime.strptime` under the C locale.
Python compiles each format into a regex: whitespace runs match one-or-more
whitespace characters, month names match case-insensitively longest-first,
one- and two-digit numeric directives follow the alternations of `_strptime`'s
TimeRE table, `%Y` is exactly four digits, the whole string must be consumed,
missing fields default to year 1900 / month 1 / day 1 / midnight, and the
constructed `datetime` validates the day against the month. -/

/-- The `strptime` directives appearing in the scraper's format strings. -/
inductive Dir where
  | lit : String → Dir   -- literal text; a whitespace run in the format is `ws`
  | ws                   -- one-or-more whitespace characters
  | monthFull            -- %B
  | monthAbbr            -- %b
  | dayNum               -- %d
  | hour12               -- %I
  | hour24               -- %H
  | minuteNum            -- %M
  | ampm                 -- %p
  | year4                -- %Y
deriving DecidableEq

/-- Fields accumulated while matching directives (the found dict of Python's
`_strptime`). -/
structure PFields where
  year : Option Int := none
  month : Option Int := none
  day : Option Int := none
  h12 : Option Int := none
  h24 : Option Int := none
  minute : Option Int := none
  pm : Option Bool := none

def digitVal (c : Char) : Int := Int.ofNat (c.toNat - 48)

/-- Numeric directive matching one or two digits: `valid2` is the allowed set
of two-digit values, `valid1` of one-digit values — mirroring the regexes
Python compiles for %d, %I, %H, %M (two-digit alternatives first, a single
digit as fallback). -/
def matchNum2 (valid2 valid1 : Int → Bool) : List Char → Option (Int × List Char)
  | c1 :: c2 :: rest =>
    if c1.isDigit && c2.isDigit then
      let v := 10 * digitVal c1 + digitVal c2
      if valid2 v then some (v, rest)
      else if valid1 (digitVal c1) then some (digitVal c1, c2 :: rest) else none
    else if c1.isDigit && valid1 (digitVal c1) then some (digitVal c1, c2 :: rest)
    else none
  | [c1] => if c1.isDigit && valid1 (digitVal c1) then some (digitVal c1, []) else none
  | [] => none

/-- Exactly four digits (%Y). -/
def matchYear4 : List Char → Option (Int × List Char)
  | c1 :: c2 :: c3 :: c4 :: rest =>
    if c1.isDigit && c2.isDigit && c3.isDigit && c4.isDigit then
      some (1000 * digitVal c1 + 100 * digitVal c2 + 10 * digitVal c3 + digitVal c4, rest)
    else none
  | _ => none

/-- Case-insensitive match of one name from `names` (longest first, as Python
sorts its alternations by length); yields the associated value. -/
def matchName (names : List (String × Int)) (l : List Char) : Option (Int × List Char) :=
  match names with
  | [] => none
  | (nm, v) :: rest =>
    if startsWithCh (l.map Char.toLower) nm.data then some (v, l.drop nm.length)
    else matchName rest l

/-- Full month names, longest first (%B, matched case-insensitively). -/
def monthNamesFull : List (String × Int) :=
  [("september", 9), ("november", 11), ("december", 12), ("february", 2),
   ("january", 1), ("october", 10), ("august", 8), ("april", 4), ("march", 3),
   ("june", 6), ("july", 7), ("may", 5)]

/-- Abbreviated month names (%b, matched case-insensitively). -/
def monthNamesAbbr : List (String × Int) :=
  [("jan", 1), ("feb", 2), ("mar", 3), ("apr", 4), ("may", 5), ("jun", 6),
   ("jul", 7), ("aug", 8), ("sep", 9), ("oct", 10), ("nov", 11), ("dec", 12)]

def applyDir (d : Dir) (f : PFields) (l : List Char) : Option (PFields × List Char) :=
  match d with
  | .lit s => if startsWithCh l s.data then some (f, l.drop s.length) else none
  | .ws =>
    match l with
    | c :: t => if c.isWhitespace then some (f, t.dropWhile Char.isWhitespace) else none
    | [] => none
  | .monthFull => (matchName monthNamesFull l).map fun (v, r) => ({ f with month := some v }, r)
  | .monthAbbr => (matchName monthNamesAbbr l).map fun (v, r) => ({ f with month := some v }, r)
  | .dayNum =>
    (matchNum2 (fun v => 1 ≤ v && v ≤ 31) (fun v => 1 ≤ v && v ≤ 9) l).map
      fun (v, r) => ({ f with day := some v }, r)
  | .hour12 =>
    (matchNum2 (fun v => 1 ≤ v && v ≤ 12) (fun v => 1 ≤ v && v ≤ 9) l).map
      fun (v, r) => ({ f with h12 := some v }, r)
  | .hour24 =>
    (matchNum2 (fun v => 0 ≤ v && v ≤ 23) (fun v => 0 ≤ v && v ≤ 9) l).map
      fun (v, r) => ({ f with h24 := some v }, r)
  | .minuteNum =>
    (matchNum2 (fun v => 0 ≤ v && v ≤ 59) (fun v => 0 ≤ v && v ≤ 9) l).map
      fun (v, r) => ({ f with minute := some v }, r)
  | .ampm =>
    if startsWithCh (l.map Char.toLower) "am".data then some ({ f with pm := some false }, l.drop 2)
    else if startsWithCh (l.map Char.toLower) "pm".data then some ({ f with pm := some true }, l.drop 2)
    else none
  | .year4 => (matchYear4 l).map fun (v, r) => ({ f with year := some v }, r)

/-- Match all directives against the whole input (strptime requires the full
string to be consumed). -/
def runDirs : List Dir → PFields → List Char → Option PFields
  | [], f, l => if l.isEmpty then some f else none
  | d :: ds, f, l =>
    match applyDir d f l with
    | none => none
    | some (f', l') => runDirs ds f' l'

/-- Build the datetime from matched fields: Python's defaults (year 1900,
month 1, day 1, midnight), 12-hour-clock resolution with %p, and the
`datetime` constructor's day-of-month validation. -/
def assembleDT (f : PFields) : Option PyDateTime :=
  let y := f.year.getD 1900
  let mo := f.month.getD 1
  let d := f.day.getD 1
  let hour : Int :=
    match f.h24 with
    | some h => h
    | none =>
      match f.h12, f.pm with
      | some h, some true => if h == 12 then 12 else h + 12
      | some h, some false => if h == 12 then 0 else h
      | some h, none => h
      | none, _ => 0
  let mi := f.minute.getD 0
  if 1 ≤ d && d ≤ daysInMonth y mo then some ⟨y, mo, d, hour, mi⟩ else none

/-- `datetime.datetime.strptime(s, fmt)` for a format given as directives. -/
def strptimeFmt (dirs : List Dir) (s : String) : Option PyDateTime :=
  (runDirs dirs {} s.data).bind assembleDT

/-- `strptime(s, "%I:%M %p").time()` (line 145). -/
def parseTime12 (s : String) : Option TimeOfDay :=
  (strptimeFmt [.hour12, .lit ":", .minuteNum, .ws, .ampm] s).map fun dt => ⟨dt.hour, dt.minute⟩

/-- `strptime(s, "%H:%M").time()` (line 394). -/
def parseTime24 (s : String) : Option TimeOfDay :=
  (strptimeFmt [.hour24, .lit ":", .minuteNum] s).map fun dt => ⟨dt.hour, dt.minute⟩

/-- `datetime.date.fromisoformat` on the canonical `YYYY-MM-DD` form (the only
form the scraped `datetime` attributes use); a failure raises, which the
caller's per-candidate handler turns into a skip. -/
def parseIsoDate (s : String) : Option IsoDate :=
  match s.data with
  | [y1, y2, y3, y4, s1, m1, m2, s2, d1, d2] =>
    if y1.isDigit && y2.isDigit && y3.isDigit && y4.isDigit && s1 == '-' &&
       m1.isDigit && m2.isDigit && s2 == '-' && d1.isDigit && d2.isDigit then
      let y := 1000 * digitVal y1 + 100 * digitVal y2 + 10 * digitVal y3 + digitVal y4
      let mo := 10 * digitVal m1 + digitVal m2
      let d := 10 * digitVal d1 + digitVal d2
      if 1 ≤ mo && mo ≤ 12 && 1 ≤ d && d ≤ daysInMonth y mo then some ⟨y, mo, d⟩ else none
    else none
  | _ => none

/-! ## Per-site date handling -/

/-- The four Evento format strings of line 166 as directive lists:
"%B %d @ %I:%M %p", "%d %b %Y %H:%M", "%d %b %Y %I:%M %p",
"%B %d, %Y @ %I:%M %p". -/
def eventoFormats : List (List Dir) :=
  [[.monthFull, .ws, .dayNum, .ws, .lit "@", .ws, .hour12, .lit ":", .minuteNum, .ws, .ampm],
   [.dayNum, .ws, .monthAbbr, .ws, .year4, .ws, .hour24, .lit ":", .minuteNum],
   [.dayNum, .ws, .monthAbbr, .ws, .year4, .ws, .hour12, .lit ":", .minuteNum, .ws, .ampm],
   [.monthFull, .ws, .dayNum, .lit ",", .ws, .year4, .ws, .lit "@", .ws, .hour12, .lit ":",
    .minuteNum, .ws, .ampm]]

/-- First format in the list that parses (the `for fmt in [...]` loop,
lines 165-171). -/
def firstParse : List (List Dir) → String → Option PyDateTime
  | [], _ => none
  | f :: fs, s =>
    match strptimeFmt f s with
    | some dt => some dt
    | none => firstParse fs s

/-- Reasons a candidate is skipped before reaching the store-bound checks. -/
inductive SkipReason where
  | parseError     -- date text matched no grammar / unparseable attribute
  | noDateEl       -- AllEvents: the date element is missing (line 153)
  | noDateAttr     -- AllEvents: the `datetime` attribute is missing (line 149)
  | unknownSite    -- neither allevents.ug nor evento.ug in the url (line 178)
deriving DecidableEq

/-- AllEvents date handling (lines 134-156): ISO `datetime` attribute plus a
separately parsed "%I:%M %p" time, falling back to midnight when the time
text does not parse. -/
def allEventsDate (dateEl : Option (Option String)) (timeEl : Option String) :
    Except SkipReason PyDateTime :=
  match dateEl with
  | none => .error .noDateEl
  | some none => .error .noDateAttr
  | some (some attr) =>
    match parseIsoDate attr with
    | none => .error .parseError
    | some base =>
      let time_str := pyStrip (timeEl.getD "")
      match parseTime12 time_str with
      | some t => .ok (combine base t)
      | none => .ok (combine base midnightT)

/-- Evento date handling (lines 158-176): strip, drop ordinal suffixes with
chained `replace` calls, then try the four formats in order. -/
def eventoDate (dateEl : Option String) : Except SkipReason PyDateTime :=
  let date_str := pyStrip (dateEl.getD "")
  let clean_date :=
    pyStrip (strReplace (strReplace (strReplace (strReplace date_str "st" "") "nd" "") "rd" "") "th" "")
  match firstParse eventoFormats clean_date with
  | some dt => .ok dt
  | none => .error .parseError

/-- Quicket date-string cleaning (lines 376-388): strip, drop a "Runs from"
prefix, drop ordinal suffixes, then the comma-splitting weekday handling. -/
def quicketCleaned (date_str : String) : String :=
  let c0 := pyStrip date_str
  let c1 := if startsWithS (lowerStr c0) "runs from" then pyStrip (strReplace c0 "Runs from" "") else c0
  let c2 := strReplace (strReplace (strReplace (strReplace c1 "st" "") "nd" "") "rd" "") "th" ""
  match splitCommas c2 with
  | p0 :: p1 :: p2 :: _ =>
    let _ := p0
    pyStrip p1 ++ " " ++ pyStrip p2
  | [p0, p1] => pyStrip p0 ++ " " ++ pyStrip p1
  | _ => c2

/-- The Quicket "%B %d %Y" format (line 390). -/
def quicketFmt : List Dir := [.monthFull, .ws, .dayNum, .ws, .year4]

/-- Quicket date+time parsing (lines 374-397): parse the cleaned date with
"%B %d %Y"; when a non-empty time string parses as "%H:%M", combine it with
the date, otherwise keep the date's midnight instant (`pass` on the inner
exception). -/
def quicketDate (date_str time_str : String) : Option PyDateTime :=
  match strptimeFmt quicketFmt (quicketCleaned date_str) with
  | none => none
  | some dt =>
    if time_str != "" then
      match parseTime24 (pyStrip time_str) with
      | some t => some ⟨dt.year, dt.month, dt.day, t.hour, t.minute⟩
      | none => some dt
    else some dt

/-! ## The store and the per-source pipeline -/

/-- A venue document as built by `get_or_create_venue` (lines 45-60).
`createdAt` is set server-side and omitted; `latitude`/`longitude` are numeric
but only ever `None` in this pipeline, so an `Option Int` carrier suffices;
`vibeRating`, `weeklyPrograms` (always `None`) and `todayImages` (always `[]`)
are constants the claims never touch and are omitted. -/
structure VenueDoc where
  name : String
  location : String
  description : String
  backgroundImageUrl : Option String
  latitude : Option Int
  longitude : Option Int
  categories : List String
  ownerId : String
  venueType : String
  isDeleted : Bool
deriving DecidableEq

/-- A stored venue: the Firestore-generated document id (a counter here) plus
the document. -/
structure VenueRec where
  id : Nat
  doc : VenueDoc
deriving DecidableEq

/-- One entry-fee line item (`{"name": ..., "amount": ...}`, line 201). -/
structure Fee where
  name : String
  amount : String
deriving DecidableEq

/-- An event document as assembled at lines 238-254 (`createdAt` server-side,
omitted). -/
structure EventDoc where
  name : String
  date : PyDateTime
  time : String
  location : String
  posterImageUrl : Option String
  artists : List String
  venueId : Nat
  venueName : String
  description : String
  entryFees : List Fee
  isFreeEntry : Bool
  priceIndicator : Int
  sourceUrl : Option String
  isDeleted : Bool
deriving DecidableEq

/-- The YoVibe/data collections the scraper touches, with a counter standing
in for Firestore's generated ids. -/
structure Store where
  venues : List VenueRec
  events : List EventDoc
  nextId : Nat
deriving DecidableEq

def emptyStore : Store := ⟨[], [], 0⟩

/-- The argument record built for `get_or_create_venue` at lines 227-234 (all
keys are always supplied by both call sites, so the `.get` defaults of
lines 48-51 never fire). -/
structure ScrapedVenue where
  name : String
  location : String
  description : String
  backgroundImageUrl : Option String
  latitude : Option Int
  longitude : Option Int
deriving DecidableEq

/-- `get_or_create_venue` (lines 38-63): query the venues whose stored `name`
and `location` equal the normalized inputs; on a miss, add a record that keeps
the RAW `name`/`location` strings (lines 46-47), and return the fresh id with
the is-new flag. -/
def get_or_create_venue (s : Store) (sv : ScrapedVenue) : Nat × Bool × Store :=
  match s.venues.find? (fun v =>
      v.doc.name == normalize_string sv.name && v.doc.location == normalize_string sv.location) with
  | some v => (v.id, false, s)
  | none =>
    let nv : VenueDoc :=
      { name := sv.name, location := sv.location, description := sv.description,
        backgroundImageUrl := sv.backgroundImageUrl, latitude := sv.latitude,
        longitude := sv.longitude, categories := ["Other"], ownerId := "scraped",
        venueType := "recreation", isDeleted := false }
    (s.nextId, true, { s with venues := s.venues ++ [⟨s.nextId, nv⟩], nextId := s.nextId + 1 })

/-- `event_exists` (lines 65-70): an event with the normalized name, the venue
id and the exact instant. Defined in the source but never called by either
pipeline. -/
def event_exists (s : Store) (event_name : String) (date : PyDateTime) (venue_id : Nat) : Bool :=
  s.events.any fun d =>
    d.name == normalize_string event_name && d.venueId == venue_id && d.date == date

/-- The `<a>` element behind `selectors["title"]`: its `href` attribute
(absent attributes come back `None`) and its inner text. -/
structure TitleEl where
  href : Option String
  text : String
deriving DecidableEq

/-- One listing element of `scrape_site_with_playwright`, reduced to the query
results the loop body reads (lines 118-201): each field is `none` when
`query_selector` found nothing. `aeDateEl` is the AllEvents `time` element
with its optional `datetime` attribute; `posterEl` is the poster element with
its optional `src` attribute. -/
structure Candidate where
  titleEl : Option TitleEl
  venueEl : Option String
  locationEl : Option String
  aeDateEl : Option (Option String)
  aeTimeEl : Option String
  evDateEl : Option String
  posterEl : Option (Option String)
  descEl : Option String
  feeEl : Option String
deriving DecidableEq

/-- The site dispatch on the url plus the per-site date logic (lines 133-181). -/
def datePhase (url : String) (c : Candidate) : Except SkipReason PyDateTime :=
  if strContains url "allevents.ug" then allEventsDate c.aeDateEl c.aeTimeEl
  else if strContains url "evento.ug" then eventoDate c.evDateEl
  else .error .unknownSite

/-- The fields the loop body has in hand when the extraction `try:` block
(lines 119-205) succeeds. -/
structure Extracted where
  eventUrl : Option String
  eventName : String
  venueName : String
  location : String
  dateObj : PyDateTime
  poster : Option String
  description : String
  feeText : String
deriving DecidableEq

/-- The extraction `try:` block (lines 119-205): selector reads with their
defaults and `.strip()` calls, and the per-site date parsing; any date failure
skips the candidate. The pure selector reads are gathered on either side of
the date parsing exactly as observable from outside the block. -/
def extractPhase (url : String) (c : Candidate) : Except SkipReason Extracted :=
  match datePhase url c with
  | .error e => .error e
  | .ok dt =>
    let event_url := c.titleEl.bind (·.href)
    let event_name := pyStrip ((c.titleEl.map (·.text)).getD "Unknown")
    let venue_name := pyStrip (c.venueEl.getD "Unknown")
    let location := pyStrip (c.locationEl.getD venue_name)
    let poster : Option String :=
      match c.posterEl with
      | none => some ""
      | some a => a
    let description := pyStrip (c.descEl.getD "")
    let fee_text := pyStrip (c.feeEl.getD "Free")
    .ok ⟨event_url, event_name, venue_name, location, dt, poster, description, fee_text⟩

/-- The fee block (lines 194-201): free iff the stripped fee text starts with
"free" (case-insensitively) or is empty; otherwise price indicator 1 and one
"General" line item carrying the raw fee text. -/
def feeFields (fee_text : String) : Bool × Int × List Fee :=
  if startsWithS (lowerStr fee_text) "free" || fee_text == "" then (true, 0, [])
  else (false, 1, [⟨"General", fee_text⟩])

/-- Python truthiness of the optional `event_url` (`if event_url:`, line 208). -/
def truthy : Option String → Bool
  | none => false
  | some s => s != ""

/-- Split an absolute URL at its `://` marker. -/
def schemeSplit : List Char → Option (List Char × List Char)
  | [] => none
  | c :: t =>
    if startsWithCh (c :: t) "://".data then some ([], (c :: t).drop 3)
    else
      match schemeSplit t with
      | some (pre, post) => some (c :: pre, post)
      | none => none

/-- `scheme://host` of an absolute URL (empty for a URL with no `://`), the
part `urllib.parse.urljoin(base, "/path")` keeps of the base. -/
def rootOf (base : String) : String :=
  match schemeSplit base.data with
  | some (scheme, rest) => ⟨scheme ++ "://".data ++ rest.takeWhile (· ≠ '/')⟩
  | none => ""

/-- Lines 210-212: a permalink starting with "/" is made absolute against the
page url (`urljoin` for an absolute-path reference), others are kept as-is. -/
def resolvedUrl (base rel : String) : String :=
  if startsWithS rel "/" then rootOf base ++ rel else rel

/-- The per-candidate pipeline states of the spec's state machine (§4.7).
`relevanceChecked` exists so the claimed ordering can be stated; the code
defines `is_enjoyment_event` but never calls it, so no trace contains it. -/
inductive Step where
  | extracted
  | relevanceChecked
  | dateParsed
  | dedupChecked
  | recencyChecked
  | venueResolved
  | admitted
deriving DecidableEq

/-- Per-candidate outcome: one skip category per `continue` site, `added` for
a persisted candidate, `insertError` when the store insert raises, and
`notReached` for candidates after an aborting insert failure. -/
inductive Outcome where
  | added
  | skipParse
  | skipNoDateEl
  | skipNoDateAttr
  | skipUnknownSite
  | skipDuplicate
  | skipPast
  | insertError
  | notReached
deriving DecidableEq

def skipOf : SkipReason → Outcome
  | .parseError => .skipParse
  | .noDateEl => .skipNoDateEl
  | .noDateAttr => .skipNoDateAttr
  | .unknownSite => .skipUnknownSite

/-- Zero-padded "%H:%M" (`date_obj.strftime("%H:%M")`, line 241). -/
def fmtHM (dt : PyDateTime) : String :=
  ⟨[Char.ofNat (48 + (Int.fdiv dt.hour 10).toNat), Char.ofNat (48 + (Int.emod dt.hour 10).toNat),
    ':', Char.ofNat (48 + (Int.fdiv dt.minute 10).toNat), Char.ofNat (48 + (Int.emod dt.minute 10).toNat)]⟩

/-- The event document assembled at lines 238-254. -/
def mkEventDoc (f : Extracted) (venue_id : Nat) (srcUrl : Option String) : EventDoc :=
  { name := f.eventName, date := f.dateObj, time := fmtHM f.dateObj,
    location := f.location, posterImageUrl := f.poster, artists := [],
    venueId := venue_id, venueName := f.venueName, description := f.description,
    entryFees := (feeFields f.feeText).2.2, isFreeEntry := (feeFields f.feeText).1,
    priceIndicator := (feeFields f.feeText).2.1,
    sourceUrl := srcUrl, isDeleted := false }

/-- The tail of the loop body after the dedup check (lines 221-257): recency
check, venue resolution, document assembly and insert. `failF` says which
document inserts raise (the store-write failure of spec §7); the Bool result
is `is_new_venue`. -/
def admitPhase (failF : EventDoc → Bool) (now : Int) (f : Extracted) (eu : Option String)
    (tr : List Step) (s : Store) : Outcome × Store × List Step × Bool :=
  if is_upcoming_event f.dateObj now = false then
    (.skipPast, s, tr ++ [Step.recencyChecked], false)
  else
    let r := get_or_create_venue s
      { name := f.venueName, location := f.location,
        description := "Venue for " ++ f.venueName,
        backgroundImageUrl := f.poster, latitude := none, longitude := none }
    let doc := mkEventDoc f r.1 eu
    if failF doc then
      (.insertError, r.2.2, tr ++ [Step.recencyChecked, Step.venueResolved], r.2.1)
    else
      (.added, { r.2.2 with events := r.2.2.events ++ [doc] },
       tr ++ [Step.recencyChecked, Step.venueResolved, Step.admitted], r.2.1)

/-- One iteration of the loop over cards (lines 118-257): extraction with date
parsing, then — in the code's order — the permalink dedup lookup (only for a
truthy permalink), the recency check, venue resolution and the insert. The
trace records which pipeline states were reached, in order. -/
def processCandidate (failF : EventDoc → Bool) (now : Int) (url : String) (c : Candidate)
    (s : Store) : Outcome × Store × List Step × Bool :=
  match extractPhase url c with
  | .error r => (skipOf r, s, [Step.extracted], false)
  | .ok f =>
    if truthy f.eventUrl then
      let eu := some (resolvedUrl url (f.eventUrl.getD ""))
      if s.events.any (fun d => d.sourceUrl == eu) then
        (.skipDuplicate, s, [Step.extracted, Step.dateParsed, Step.dedupChecked], false)
      else
        admitPhase failF now f eu [Step.extracted, Step.dateParsed, Step.dedupChecked] s
    else
      admitPhase failF now f f.eventUrl [Step.extracted, Step.dateParsed] s

/-- The per-source tally (lines 84-86 and 266, and the zeroed error summary of
line 263). -/
structure Summary where
  added : Nat
  skipped : Nat
  newVenues : Nat
  error : Option String
deriving DecidableEq

def addCount : Outcome → Nat
  | .added => 1
  | _ => 0

def skipCount : Outcome → Nat
  | .added => 0
  | .insertError => 0
  | .notReached => 0
  | _ => 1

/-- The loop over all cards of one source (lines 118-267): sequential, each
candidate seeing the store as left by its predecessors. An insert failure
escapes the loop to the handler at lines 261-264, which reports a zeroed
summary carrying the error text and returns; candidates after it are marked
`notReached`. -/
def runListF (failF : EventDoc → Bool) (now : Int) (url : String) :
    List Candidate → Store → Summary × Store × List (Candidate × Outcome)
  | [], s => (⟨0, 0, 0, none⟩, s, [])
  | c :: cs, s =>
    let r := processCandidate failF now url c s
    if r.1 = Outcome.insertError then
      (⟨0, 0, 0, some "insert failed"⟩, r.2.1,
       (c, r.1) :: cs.map fun c' => (c', Outcome.notReached))
    else
      let rest := runListF failF now url cs r.2.1
      let sum :=
        match rest.1.error with
        | some e => (⟨0, 0, 0, some e⟩ : Summary)
        | none => ⟨rest.1.added + addCount r.1, rest.1.skipped + skipCount r.1,
                   rest.1.newVenues + (if r.2.2.2 then 1 else 0), none⟩
      (sum, rest.2.1, (c, r.1) :: rest.2.2)

/-- A store whose inserts never fail. -/
def noFail : EventDoc → Bool := fun _ => false

/-! ## Specification-side definitions and concrete inputs -/

/-- The claim's relevance predicate read literally: a keyword occurs in the
lowercased plain concatenation of name and description (no separator). -/
def relevanceClaimB (event_name description : String) : Bool :=
  ENJOYMENT_CATEGORIES.any fun cat => strContains (lowerStr (event_name ++ description)) cat

/-- The price/fee invariant of every freshly assembled event document. -/
def feeInvariant (d : EventDoc) : Prop :=
  (d.isFreeEntry = true ↔ d.priceIndicator = 0) ∧
  (d.entryFees = [] ↔ d.isFreeEntry = true) ∧
  (d.isFreeEntry = false → ∃ amt, d.entryFees = [⟨"General", amt⟩])

/-- The spec's full per-candidate state chain (§4.7). -/
def stateOrder : List Step :=
  [Step.extracted, Step.relevanceChecked, Step.dateParsed, Step.dedupChecked,
   Step.recencyChecked, Step.venueResolved, Step.admitted]

/-- The chain the code actually follows: no relevance check, and the dedup
lookup before the recency check. -/
def codeOrder : List Step :=
  [Step.extracted, Step.dateParsed, Step.dedupChecked,
   Step.recencyChecked, Step.venueResolved, Step.admitted]

/-- The raw permalink of a candidate (the `href` of the title link). -/
def hrefOf (c : Candidate) : Option String := c.titleEl.bind (·.href)

/-- "This candidate carries permalink `p` and was admitted." -/
def admittedWith (p : String) (x : Candidate × Outcome) : Bool :=
  hrefOf x.1 == some p && x.2 == Outcome.added

/-- The Evento source URL (line 293). -/
def evUrl : String := "https://evento.ug/events?eventtype=Music%20and%20Concerts"

/-- A venue whose display name is not already in normalized form. -/
def svClubX : ScrapedVenue :=
  ⟨"Club X", "Kampala", "Venue for Club X", some "", none, none⟩

/-- A permalink-free Evento candidate (link element without `href`). -/
def candNP : Candidate :=
  { titleEl := some ⟨none, "party night"⟩, venueEl := some "club",
    locationEl := some "kampala", aeDateEl := none, aeTimeEl := none,
    evDateEl := some "12 Dec 2099 10:00", posterEl := none, descEl := some "fun",
    feeEl := some "Free" }

/-- An admissible Evento candidate whose name and description contain no
keyword of `ENJOYMENT_CATEGORIES`. -/
def candGala : Candidate :=
  { titleEl := some ⟨none, "Gala Night"⟩, venueEl := some "Hall",
    locationEl := none, aeDateEl := none, aeTimeEl := none,
    evDateEl := some "12 Dec 2099 10:00", posterEl := none, descEl := none,
    feeEl := some "UGX 50,000" }

/-- A stored event carrying the permalink `https://x/e1`. -/
def docDup : EventDoc :=
  { name := "x", date := ⟨2099, 1, 1, 0, 0⟩, time := "00:00", location := "loc",
    posterImageUrl := some "", artists := [], venueId := 0, venueName := "v",
    description := "", entryFees := [], isFreeEntry := true, priceIndicator := 0,
    sourceUrl := some "https://x/e1", isDeleted := false }

def storeDup : Store := ⟨[], [docDup], 0⟩

/-- A candidate that is both a duplicate (same permalink as `docDup`) and in
the past. -/
def candDupPast : Candidate :=
  { titleEl := some ⟨some "https://x/e1", "Gala"⟩, venueEl := some "Hall",
    locationEl := none, aeDateEl := none, aeTimeEl := none,
    evDateEl := some "12 Dec 1999 10:00", posterEl := none, descEl := none,
    feeEl := none }

def candA : Candidate := { candGala with titleEl := some ⟨none, "Event A"⟩ }

def candB : Candidate := { candGala with titleEl := some ⟨none, "Event B"⟩ }

/-- A store whose insert fails exactly on Event A's document. -/
def failA : EventDoc → Bool := fun d => d.name == "Event A"

/-- A candidate with a relative permalink, admissible from the empty store. -/
def candU : Candidate := { candGala with titleEl := some ⟨some "/e/1", "party night"⟩ }

/-- An Evento candidate whose date text matches none of the four grammars. -/
def candBad : Candidate :=
  { titleEl := some ⟨none, "party"⟩, venueEl := some "v", locationEl := none,
    aeDateEl := none, aeTimeEl := none, evDateEl := some "not a date",
    posterEl := none, descEl := none, feeEl := none }

/-- The document the run over `[candNP]` admits. -/
def docNP : EventDoc :=
  { name := "party night", date := ⟨2099, 12, 12, 10, 0⟩, time := "10:00",
    location := "kampala", posterImageUrl := some "", artists := [],
    venueId := 0, venueName := "club", description := "fun", entryFees := [],
    isFreeEntry := true, priceIndicator := 0, sourceUrl := none, isDeleted := false }

/-! ## Helper lemmas -/

theorem startsWithCh_iff (pat : List Char) :
    ∀ hay, startsWithCh hay pat = true ↔ ∃ t, hay = pat ++ t := by
  induction pat with
  | nil => intro hay; simp [startsWithCh]
  | cons p ps ih =>
    intro hay
    cases hay with
    | nil => simp [startsWithCh]
    | cons c t =>
      simp only [startsWithCh, Bool.and_eq_true, beq_iff_eq, ih t]
      constructor
      · rintro ⟨rfl, u, rfl⟩; exact ⟨u, rfl⟩
      · rintro ⟨u, h⟩; cases h; exact ⟨rfl, u, rfl⟩

theorem strContainsL_iff (pat : List Char) :
    ∀ hay, strContainsL hay pat = true ↔ ∃ pre post, hay = pre ++ pat ++ post := by
  intro hay
  induction hay with
  | nil =>
    simp only [strContainsL, List.isEmpty_iff]
    constructor
    · rintro rfl; exact ⟨[], [], rfl⟩
    · rintro ⟨pre, post, h⟩
      cases pre <;> cases pat <;> simp_all
  | cons c t ih =>
    simp only [strContainsL, Bool.or_eq_true, startsWithCh_iff, ih]
    constructor
    · rintro (⟨u, hu⟩ | ⟨pre, post, rfl⟩)
      · exact ⟨[], u, by simpa using hu⟩
      · exact ⟨c :: pre, post, rfl⟩
    · rintro ⟨pre, post, h⟩
      cases pre with
      | nil => exact Or.inl ⟨post, by simpa using h⟩
      | cons p pre' =>
        simp only [List.cons_append, List.cons.injEq] at h
        exact Or.inr ⟨pre', post, h.2⟩

theorem get_or_create_venue_events (s : Store) (sv : ScrapedVenue) :
    (get_or_create_venue s sv).2.2.events = s.events := by
  unfold get_or_create_venue
  split <;> rfl

theorem extract_ok_fields {url : String} {c : Candidate} {f : Extracted}
    (h : extractPhase url c = .ok f) :
    f.eventUrl = c.titleEl.bind (·.href) ∧ f.feeText = pyStrip (c.feeEl.getD "Free") := by
  unfold extractPhase at h
  cases hd : datePhase url c with
  | error e => rw [hd] at h; exact absurd h (by simp)
  | ok dt =>
    rw [hd] at h
    cases h
    exact ⟨rfl, rfl⟩

theorem feeInvariant_mk (f : Extracted) (vid : Nat) (su : Option String) :
    feeInvariant (mkEventDoc f vid su) := by
  unfold feeInvariant mkEventDoc feeFields
  split <;> simp

theorem mkEventDoc_paid_fee (f : Extracted) (vid : Nat) (su : Option String)
    (h : (mkEventDoc f vid su).isFreeEntry = false) :
    (mkEventDoc f vid su).entryFees = [⟨"General", f.feeText⟩] := by
  unfold mkEventDoc feeFields at *
  split at h
  · simp at h
  · simp_all

theorem processCandidate_mem_events (failF : EventDoc → Bool) (now : Int) (url : String)
    (c : Candidate) (s : Store) (d : EventDoc)
    (hd : d ∈ (processCandidate failF now url c s).2.1.events) :
    d ∈ s.events ∨ feeInvariant d := by
  rcases hext : extractPhase url c with e | f <;>
    simp only [processCandidate, admitPhase, hext] at hd
  · exact Or.inl hd
  · split at hd
    · split at hd
      · exact Or.inl hd
      · split at hd
        · exact Or.inl hd
        · split at hd
          · rw [get_or_create_venue_events] at hd
            exact Or.inl hd
          · simp only [get_or_create_venue_events, List.mem_append, List.mem_singleton] at hd
            rcases hd with hd | rfl
            · exact Or.inl hd
            · exact Or.inr (feeInvariant_mk ..)
    · split at hd
      · exact Or.inl hd
      · split at hd
        · rw [get_or_create_venue_events] at hd
          exact Or.inl hd
        · simp only [get_or_create_venue_events, List.mem_append, List.mem_singleton] at hd
          rcases hd with hd | rfl
          · exact Or.inl hd
          · exact Or.inr (feeInvariant_mk ..)

theorem runListF_mem_events (failF : EventDoc → Bool) (now : Int) (url : String) :
    ∀ (cs : List Candidate) (s : Store) (d : EventDoc),
      d ∈ (runListF failF now url cs s).2.1.events → d ∈ s.events ∨ feeInvariant d := by
  intro cs
  induction cs with
  | nil => intro s d hd; exact Or.inl hd
  | cons c cs ih =>
    intro s d hd
    simp only [runListF] at hd
    split at hd
    · exact processCandidate_mem_events failF now url c s d hd
    · rcases ih _ d hd with h | h
      · exact processCandidate_mem_events failF now url c s d h
      · exact Or.inr h

theorem processCandidate_any_mono (failF : EventDoc → Bool) (now : Int) (url : String)
    (c : Candidate) (s : Store) (p : EventDoc → Bool) (h : s.events.any p = true) :
    (processCandidate failF now url c s).2.1.events.any p = true := by
  rcases hext : extractPhase url c with e | f <;>
    simp only [processCandidate, admitPhase, hext]
  · exact h
  · split
    · split
      · exact h
      · split
        · exact h
        · split
          · dsimp only; rw [get_or_create_venue_events]; exact h
          · dsimp only
            rw [List.any_append, get_or_create_venue_events, h]
            rfl
    · split
      · exact h
      · split
        · dsimp only; rw [get_or_create_venue_events]; exact h
        · dsimp only
          rw [List.any_append, get_or_create_venue_events, h]
          rfl

theorem processCandidate_dedup_rejects (failF : EventDoc → Bool) (now : Int) (url : String)
    (c : Candidate) (s : Store) (p : String) (hp : hrefOf c = some p) (hne : p ≠ "")
    (hhit : s.events.any (fun d => d.sourceUrl == some (resolvedUrl url p)) = true) :
    (processCandidate failF now url c s).1 ≠ Outcome.added := by
  rcases hext : extractPhase url c with e | f <;>
    simp only [processCandidate, admitPhase, hext]
  · cases e <;> simp [skipOf]
  · have hurl : f.eventUrl = some p := (extract_ok_fields hext).1.trans hp
    have htr : truthy f.eventUrl = true := by
      rw [hurl]
      simpa [truthy] using hne
    rw [htr]
    simp only [if_true, hurl, Option.getD_some, hhit]
    simp

theorem processCandidate_added_stores (failF : EventDoc → Bool) (now : Int) (url : String)
    (c : Candidate) (s : Store) (p : String) (hp : hrefOf c = some p) (hne : p ≠ "")
    (hadd : (processCandidate failF now url c s).1 = Outcome.added) :
    (processCandidate failF now url c s).2.1.events.any
      (fun d => d.sourceUrl == some (resolvedUrl url p)) = true := by
  rcases hext : extractPhase url c with e | f <;>
    simp only [processCandidate, admitPhase, hext] at hadd ⊢
  · cases e <;> simp [skipOf] at hadd
  · have hurl : f.eventUrl = some p := (extract_ok_fields hext).1.trans hp
    have htr : truthy f.eventUrl = true := by
      rw [hurl]
      simpa [truthy] using hne
    rw [htr] at hadd ⊢
    simp only [if_true, hurl, Option.getD_some] at hadd ⊢
    split at hadd
    · simp at hadd
    · split at hadd
      · simp at hadd
      · split at hadd
        · simp at hadd
        · rename_i h1 h2 h3
          rw [if_neg h1, if_neg h2, if_neg h3]
          dsimp only
          rw [List.any_append]
          simp [mkEventDoc]

theorem runListF_countP_zero (failF : EventDoc → Bool) (now : Int) (url : String)
    (p : String) (hne : p ≠ "") :
    ∀ (cs : List Candidate) (s : Store),
      s.events.any (fun d => d.sourceUrl == some (resolvedUrl url p)) = true →
      ((runListF failF now url cs s).2.2.countP (admittedWith p)) = 0 := by
  intro cs
  induction cs with
  | nil => intro s _; rfl
  | cons c cs ih =>
    intro s hhit
    simp only [runListF]
    split
    · rename_i habort
      rw [List.countP_cons]
      have h1 : admittedWith p (c, (processCandidate failF now url c s).1) = false := by
        simp [admittedWith, habort]
      have h2 : (cs.map fun c' => (c', Outcome.notReached)).countP (admittedWith p) = 0 := by
        rw [List.countP_eq_zero]
        rintro ⟨c', o⟩ hx
        simp only [List.mem_map] at hx
        obtain ⟨c'', _, heq⟩ := hx
        cases heq
        simp [admittedWith]
      simp [h1, h2]
    · rw [List.countP_cons]
      have htail : ((runListF failF now url cs
          (processCandidate failF now url c s).2.1).2.2.countP (admittedWith p)) = 0 :=
        ih _ (processCandidate_any_mono failF now url c s _ hhit)
      have hhead : admittedWith p (c, (processCandidate failF now url c s).1) = false := by
        unfold admittedWith
        rcases hq : hrefOf c == some p with _ | _
        · simp
        · have hp : hrefOf c = some p := by simpa using hq
          have := processCandidate_dedup_rejects failF now url c s p hp hne hhit
          simp_all
      simp [hhead, htail]

/-! ## Claim theorems -/

/-- C1: the claim says venue resolution is idempotent because both the lookup
and the STORED record use the trimmed, lowercased normalization of name and
location. In the code only the lookup normalizes (lines 40-41); the stored
record keeps the raw strings (lines 46-47). Evaluated at the raw pair
("Club X", "Kampala") from the empty store: the first resolution creates
venue id 0, the second resolution misses the lookup and creates a SECOND
venue with id 1, so the ids differ and two records exist. -/
theorem C1_venue_raw_name_eval :
    (get_or_create_venue emptyStore svClubX).1 = 0 ∧
    (get_or_create_venue emptyStore svClubX).2.1 = true ∧
    (get_or_create_venue (get_or_create_venue emptyStore svClubX).2.2 svClubX).1 = 1 ∧
    (get_or_create_venue (get_or_create_venue emptyStore svClubX).2.2 svClubX).2.1 = true ∧
    (get_or_create_venue (get_or_create_venue emptyStore svClubX).2.2 svClubX).2.2.venues.length = 2 := by
  decide

/-- C2: the claim says a candidate with no permalink is checked against the
store by the (normalized name, venue id, start instant) triple before being
admitted. The pipeline never performs that query — `event_exists` is defined
(lines 65-70) but never called — so a run over two permalink-free candidates
with the identical triple admits BOTH: the run reports two added events, the
store holds two documents with the same triple, and `event_exists` itself
answers true for that triple against the final store (the lookup the code
never made). -/
theorem C2_triple_dedup_eval :
    (runListF noFail 0 evUrl [candNP, candNP] emptyStore).1.added = 2 ∧
    ((runListF noFail 0 evUrl [candNP, candNP] emptyStore).2.1.events.map
        fun d => (normalize_string d.name, d.venueId, d.date)) =
      [("party night", 0, ⟨2099, 12, 12, 10, 0⟩), ("party night", 0, ⟨2099, 12, 12, 10, 0⟩)] ∧
    event_exists (runListF noFail 0 evUrl [candNP, candNP] emptyStore).2.1
      "party night" ⟨2099, 12, 12, 10, 0⟩ 0 = true := by
  decide

/-- C3 counterexample: the claimed per-candidate order (relevance before the
store-bound checks, recency before the dedup lookup) is false on the code.
First input: `candGala`, whose stripped name "Gala Night" and empty
description contain no keyword, is ADMITTED — no relevance check is ever
applied. Second input: `candDupPast`, a past-dated duplicate, is rejected at
the dedup lookup with trace [extracted, dateParsed, dedupChecked]: the dedup
lookup ran and the recency check never did, so recency does not precede
dedup. -/
theorem C3_order_cex :
    (processCandidate noFail 0 evUrl candGala emptyStore).1 = Outcome.added ∧
    is_enjoyment_event "Gala Night" "" = false ∧
    pyStrip "Gala Night" = "Gala Night" ∧
    (processCandidate noFail 0 evUrl candDupPast storeDup).2.2.1 =
      [Step.extracted, Step.dateParsed, Step.dedupChecked] ∧
    Step.recencyChecked ∉ (processCandidate noFail 0 evUrl candDupPast storeDup).2.2.1 := by
  decide

/-- C3 (amended): for every candidate and store, the trace of the
per-candidate pipeline is an ordered subsequence of
Extracted → DateParsed → DedupChecked → RecencyChecked → VenueResolved →
Admitted (so the dedup lookup comes BEFORE the recency check), terminal at
the first rejection; the relevance state is never entered (the filter is
defined but never called); and a candidate is admitted exactly when the final
state is reached. -/
theorem C3_order (failF : EventDoc → Bool) (now : Int) (url : String) (c : Candidate)
    (s : Store) :
    (processCandidate failF now url c s).2.2.1.Sublist codeOrder ∧
    Step.relevanceChecked ∉ (processCandidate failF now url c s).2.2.1 ∧
    ((processCandidate failF now url c s).1 = Outcome.added ↔
      Step.admitted ∈ (processCandidate failF now url c s).2.2.1) := by
  rcases hext : extractPhase url c with e | f <;>
    simp only [processCandidate, admitPhase, hext]
  · refine ⟨by decide, by decide, ?_⟩
    cases e <;> simp [skipOf]
  · split
    · split
      · exact ⟨by dsimp only; decide, by dsimp only; decide, by dsimp only; simp⟩
      · split
        · exact ⟨by dsimp only; decide, by dsimp only; decide, by dsimp only; simp⟩
        · split
          · exact ⟨by dsimp only; decide, by dsimp only; decide, by dsimp only; simp⟩
          · exact ⟨by dsimp only; decide, by dsimp only; decide, by dsimp only; simp⟩
    · split
      · exact ⟨by dsimp only; decide, by dsimp only; decide, by dsimp only; simp⟩
      · split
        · exact ⟨by dsimp only; decide, by dsimp only; decide, by dsimp only; simp⟩
        · exact ⟨by dsimp only; decide, by dsimp only; decide, by dsimp only; simp⟩

/-- C3 witness: the amended order statement at a concrete admitted candidate. -/
theorem C3_order_witness :
    (processCandidate noFail 0 evUrl candGala emptyStore).2.2.1.Sublist codeOrder ∧
    Step.relevanceChecked ∉ (processCandidate noFail 0 evUrl candGala emptyStore).2.2.1 ∧
    ((processCandidate noFail 0 evUrl candGala emptyStore).1 = Outcome.added ↔
      Step.admitted ∈ (processCandidate noFail 0 evUrl candGala emptyStore).2.2.1) :=
  C3_order noFail 0 evUrl candGala emptyStore

/-- C4 counterexample: the claim says an insert failure does not abort the
remaining candidates. On the code it does: with inserts failing exactly on
"Event A", the run over [candA, candB] reports the zeroed error summary of
line 263, candB is never processed (outcome `notReached`) and nothing is
persisted — although candB run alone is admitted. -/
theorem C4_abort_cex :
    (runListF failA 0 evUrl [candA, candB] emptyStore).1 =
      ⟨0, 0, 0, some "insert failed"⟩ ∧
    (runListF failA 0 evUrl [candA, candB] emptyStore).2.2.map (·.2) =
      [Outcome.insertError, Outcome.notReached] ∧
    (runListF failA 0 evUrl [candA, candB] emptyStore).2.1.events = [] ∧
    (runListF noFail 0 evUrl [candB] emptyStore).1.added = 1 := by
  decide

/-- C4 (amended): an insert failure is surfaced — the run's summary carries a
non-empty error exactly when some candidate's insert raised — but it aborts
the source run: the summary's counters are reported as zero, and every
candidate after the failing one is not processed (`notReached`). -/
theorem C4_insert_abort (failF : EventDoc → Bool) (now : Int) (url : String) :
    ∀ (cs : List Candidate) (s : Store),
      ((runListF failF now url cs s).1.error.isSome = true ↔
        Outcome.insertError ∈ (runListF failF now url cs s).2.2.map (·.2)) ∧
      ((runListF failF now url cs s).1.error.isSome = true →
        (runListF failF now url cs s).1.added = 0 ∧
        (runListF failF now url cs s).1.skipped = 0 ∧
        (runListF failF now url cs s).1.newVenues = 0) ∧
      (∀ (i j : Nat) (ci cj : Candidate) (oj : Outcome),
        (runListF failF now url cs s).2.2[i]? = some (ci, Outcome.insertError) →
        i < j → (runListF failF now url cs s).2.2[j]? = some (cj, oj) →
        oj = Outcome.notReached) := by
  intro cs
  induction cs with
  | nil =>
    intro s
    refine ⟨by simp [runListF], by simp [runListF], ?_⟩
    intro i j ci cj oj hi _ _
    simp [runListF] at hi
  | cons c cs ih =>
    intro s
    simp only [runListF]
    split
    · rename_i habort
      refine ⟨by simp [habort], fun _ => ⟨rfl, rfl, rfl⟩, ?_⟩
      intro i j ci cj oj hi hij hj
      cases i with
      | succ i' =>
        rw [List.getElem?_cons_succ, List.getElem?_map] at hi
        rcases hx : cs[i']? with _ | c''
        · rw [hx] at hi; simp at hi
        · rw [hx] at hi; simp at hi
      | zero =>
        cases j with
        | zero => omega
        | succ j' =>
          rw [List.getElem?_cons_succ, List.getElem?_map] at hj
          rcases hx : cs[j']? with _ | c''
          · rw [hx] at hj; simp at hj
          · rw [hx] at hj
            rw [show Option.map (fun c' => (c', Outcome.notReached)) (some c'') =
                some (c'', Outcome.notReached) from rfl] at hj
            exact (congrArg Prod.snd (Option.some.inj hj)).symm
    · rename_i hnoabort
      obtain ⟨ihA, ihB, ihC⟩ := ih (processCandidate failF now url c s).2.1
      rcases herr : (runListF failF now url cs (processCandidate failF now url c s).2.1).1.error
        with _ | e
      · have hmem : Outcome.insertError ∉
            ((runListF failF now url cs (processCandidate failF now url c s).2.1).2.2.map (·.2)) := by
          intro hm
          have h2 := ihA.mpr hm
          rw [herr] at h2
          simp at h2
        refine ⟨?_, by simp [herr], ?_⟩
        · simp only [herr, List.map_cons, List.mem_cons]
          constructor
          · intro h; simp at h
          · rintro (h | h)
            · exact absurd h.symm hnoabort
            · exact absurd h hmem
        · intro i j ci cj oj hi hij hj
          cases i with
          | zero =>
            rw [List.getElem?_cons_zero] at hi
            exact absurd (congrArg Prod.snd (Option.some.inj hi)) hnoabort
          | succ i' =>
            cases j with
            | zero => omega
            | succ j' =>
              rw [List.getElem?_cons_succ] at hi hj
              exact ihC i' j' ci cj oj hi (by omega) hj
      · have hmem2 : Outcome.insertError ∈
            ((runListF failF now url cs (processCandidate failF now url c s).2.1).2.2.map (·.2)) :=
          ihA.mp (by rw [herr]; rfl)
        refine ⟨?_, fun _ => ⟨rfl, rfl, rfl⟩, ?_⟩
        · simp only [herr, List.map_cons, List.mem_cons]
          exact ⟨fun _ => Or.inr hmem2, fun _ => rfl⟩
        · intro i j ci cj oj hi hij hj
          cases i with
          | zero =>
            rw [List.getElem?_cons_zero] at hi
            exact absurd (congrArg Prod.snd (Option.some.inj hi)) hnoabort
          | succ i' =>
            cases j with
            | zero => omega
            | succ j' =>
              rw [List.getElem?_cons_succ] at hi hj
              exact ihC i' j' ci cj oj hi (by omega) hj

/-- C4 witness: the reset counters of the aborted concrete run, obtained from
the theorem with its non-empty-error hypothesis discharged by evaluation. -/
theorem C4_insert_abort_witness :
    (runListF failA 0 evUrl [candA, candB] emptyStore).1.added = 0 ∧
    (runListF failA 0 evUrl [candA, candB] emptyStore).1.skipped = 0 ∧
    (runListF failA 0 evUrl [candA, candB] emptyStore).1.newVenues = 0 :=
  (C4_insert_abort failA 0 evUrl [candA, candB] emptyStore).2.1 (by decide)

/-- C5: a candidate whose date text matches none of its source's grammars is
an explicit parse failure: the outcome is the distinct `skipParse`, the store
is untouched (nothing persisted, in particular nothing dated "now"), the
trace stops at extraction, and a one-candidate run counts exactly one skipped
candidate with no error. -/
theorem C5_parse_failure (failF : EventDoc → Bool) (now : Int) (url : String)
    (c : Candidate) (s : Store) (h : datePhase url c = Except.error SkipReason.parseError) :
    processCandidate failF now url c s = (Outcome.skipParse, s, [Step.extracted], false) ∧
    runListF failF now url [c] s =
      (⟨0, 1, 0, none⟩, s, [(c, Outcome.skipParse)]) := by
  have hext : extractPhase url c = Except.error SkipReason.parseError := by
    unfold extractPhase
    rw [h]
  constructor
  · unfold processCandidate
    rw [hext]
    rfl
  · unfold runListF
    unfold processCandidate
    rw [hext]
    simp [runListF, skipOf, addCount, skipCount]

/-- C5 witness: the Evento candidate with date text "not a date". -/
theorem C5_parse_failure_witness :
    processCandidate noFail 0 evUrl candBad emptyStore =
      (Outcome.skipParse, emptyStore, [Step.extracted], false) ∧
    runListF noFail 0 evUrl [candBad] emptyStore =
      (⟨0, 1, 0, none⟩, emptyStore, [(candBad, Outcome.skipParse)]) :=
  C5_parse_failure noFail 0 evUrl candBad emptyStore (by rfl)

/-- C6: in a single run, at most one candidate carrying any given non-empty
permalink `p` is ever admitted — whatever the store's initial contents, the
failure behaviour of inserts, and the positions of the candidates: every
truthy permalink is checked against the stored `sourceUrl` values before
insertion, and an admitted candidate's document (with its resolved permalink)
is in the store before any later candidate is checked. -/
theorem C6_permalink_once (failF : EventDoc → Bool) (now : Int) (url : String)
    (p : String) (hne : p ≠ "") (cs : List Candidate) (s : Store) :
    ((runListF failF now url cs s).2.2.countP (admittedWith p)) ≤ 1 := by
  induction cs generalizing s with
  | nil => simp [runListF]
  | cons c cs ih =>
    simp only [runListF]
    split
    · rename_i habort
      rw [List.countP_cons]
      have h1 : admittedWith p (c, (processCandidate failF now url c s).1) = false := by
        simp [admittedWith, habort]
      have h2 : (cs.map fun c' => (c', Outcome.notReached)).countP (admittedWith p) = 0 := by
        rw [List.countP_eq_zero]
        rintro ⟨c', o⟩ hx
        simp only [List.mem_map] at hx
        obtain ⟨c'', _, heq⟩ := hx
        cases heq
        simp [admittedWith]
      simp [h1, h2]
    · rw [List.countP_cons]
      rcases hpred : admittedWith p (c, (processCandidate failF now url c s).1) with _ | _
      · simpa [hpred] using ih ((processCandidate failF now url c s).2.1)
      · unfold admittedWith at hpred
        simp only [Bool.and_eq_true, beq_iff_eq] at hpred
        have hzero := runListF_countP_zero failF now url p hne cs
          ((processCandidate failF now url c s).2.1)
          (processCandidate_added_stores failF now url c s p hpred.1 hne hpred.2)
        simp [hpred, hzero, admittedWith]

/-- C6 witness: two candidates sharing the relative permalink "/e/1" in one
run; the first is admitted and the second rejected as a duplicate. -/
theorem C6_permalink_once_witness :
    ((runListF noFail 0 evUrl [candU, candU] emptyStore).2.2.countP
      (admittedWith "/e/1")) ≤ 1 :=
  C6_permalink_once noFail 0 evUrl "/e/1" (by decide) [candU, candU] emptyStore

/-- C7: the recency filter returns true exactly when the event's start is not
before the current instant — `(date_obj - now).days >= 0` with flooring
division holds iff `now ≤ date_obj` — and no upper bound is applied. -/
theorem C7_recency_iff (dt : PyDateTime) (now : Int) :
    is_upcoming_event dt now = true ↔ now ≤ toTimestamp dt := by
  unfold is_upcoming_event
  rw [decide_eq_true_iff]
  constructor
  · intro h
    by_contra hn
    push_neg at hn
    have h2 : toTimestamp dt - now < 0 := by omega
    have := Int.fdiv_neg' h2 (by norm_num : (0 : Int) < 86400)
    omega
  · intro h
    exact Int.fdiv_nonneg (by omega) (by norm_num)

/-- C7 witness: the filter at a future and a past instant against now = 0. -/
theorem C7_recency_iff_witness :
    (is_upcoming_event ⟨2099, 12, 12, 10, 0⟩ 0 = true ↔
      (0 : Int) ≤ toTimestamp ⟨2099, 12, 12, 10, 0⟩) ∧
    (is_upcoming_event ⟨1969, 12, 31, 23, 59⟩ 0 = true ↔
      (0 : Int) ≤ toTimestamp ⟨1969, 12, 31, 23, 59⟩) :=
  ⟨C7_recency_iff ⟨2099, 12, 12, 10, 0⟩ 0, C7_recency_iff ⟨1969, 12, 31, 23, 59⟩ 0⟩

/-- C8 counterexample: the filter is NOT "a keyword occurs in the lowercase
concatenation of name and description" read literally — the code joins name
and description with a space (`f"{name} {description}"`). At name "tri" and
description "p" the plain concatenation contains "trip" but the code's
space-joined text does not, so the two sides of the claimed equivalence
differ. -/
theorem C8_relevance_cex :
    is_enjoyment_event "tri" "p" = false ∧ relevanceClaimB "tri" "p" = true ∧
    is_enjoyment_event "tri" "p" ≠ relevanceClaimB "tri" "p" := by
  decide

/-- C8 (amended): the relevance filter returns true iff some member of the
keyword set {party, trip, tour, concert, festival, brunch} occurs as a
contiguous substring of the lowercased text "name, one space, description";
it is a pure total function of those two strings. -/
theorem C8_relevance_amended (event_name description : String) :
    is_enjoyment_event event_name description = true ↔
      ∃ cat ∈ ENJOYMENT_CATEGORIES, ∃ pre post,
        (lowerStr (event_name ++ " " ++ description)).data = pre ++ cat.data ++ post := by
  unfold is_enjoyment_event
  rw [List.any_eq_true]
  constructor
  · rintro ⟨cat, hmem, hc⟩
    exact ⟨cat, hmem, (strContainsL_iff cat.data _).mp hc⟩
  · rintro ⟨cat, hmem, pre, post, h⟩
    exact ⟨cat, hmem, (strContainsL_iff cat.data _).mpr ⟨pre, post, h⟩⟩

/-- C8 witness: the amended equivalence at a name containing "party". -/
theorem C8_relevance_amended_witness :
    is_enjoyment_event "Big PARTY" "x" = true ↔
      ∃ cat ∈ ENJOYMENT_CATEGORIES, ∃ pre post,
        (lowerStr ("Big PARTY" ++ " " ++ "x")).data = pre ++ cat.data ++ post :=
  C8_relevance_amended "Big PARTY" "x"

/-- C9: when date and time are separate strings, each is parsed independently
and combined into one UTC instant, and a time-parse failure does not
invalidate a successful date parse — the result falls back to midnight. The
AllEvents path combines the ISO `datetime` attribute with the "%I:%M %p"
time; the example "2025-12-12" + "7:30 PM" yields 2025-12-12T19:30:00Z
(epoch second 1765567800). The Quicket path keeps the parsed date's midnight
when the non-empty time string fails "%H:%M". -/
theorem C9_date_time_combination :
    (∀ attr timeEl base t, parseIsoDate attr = some base →
        parseTime12 (pyStrip (timeEl.getD "")) = some t →
        allEventsDate (some (some attr)) timeEl = Except.ok (combine base t)) ∧
    (∀ attr timeEl base, parseIsoDate attr = some base →
        parseTime12 (pyStrip (timeEl.getD "")) = none →
        allEventsDate (some (some attr)) timeEl = Except.ok (combine base midnightT)) ∧
    allEventsDate (some (some "2025-12-12")) (some "7:30 PM") =
      Except.ok ⟨2025, 12, 12, 19, 30⟩ ∧
    toTimestamp ⟨2025, 12, 12, 19, 30⟩ = 1765567800 ∧
    (∀ date_str time_str dt, strptimeFmt quicketFmt (quicketCleaned date_str) = some dt →
        time_str ≠ "" → parseTime24 (pyStrip time_str) = none →
        quicketDate date_str time_str = some dt) := by
  refine ⟨?_, ?_, by rfl, by decide, ?_⟩
  · intro attr timeEl base t hbase ht
    simp only [allEventsDate, hbase, ht]
  · intro attr timeEl base hbase ht
    simp only [allEventsDate, hbase, ht]
  · intro date_str time_str dt hdt hne ht
    simp only [quicketDate, hdt, ht, bne_iff_ne, ne_eq, hne, not_false_eq_true, if_true]

/-- C9 witness: the three combination facts at concrete inputs — a parsing
time, a failing time falling back to midnight, and Quicket's midnight keep. -/
theorem C9_date_time_combination_witness :
    allEventsDate (some (some "2025-12-12")) (some "7:30 PM") =
      Except.ok (combine ⟨2025, 12, 12⟩ ⟨19, 30⟩) ∧
    allEventsDate (some (some "2025-12-12")) (some "evening") =
      Except.ok (combine ⟨2025, 12, 12⟩ midnightT) ∧
    quicketDate "Friday, December 12, 2025" "7:30 PM" = some ⟨2025, 12, 12, 0, 0⟩ :=
  ⟨C9_date_time_combination.1 "2025-12-12" (some "7:30 PM") ⟨2025, 12, 12⟩ ⟨19, 30⟩
      (by decide) (by decide),
   C9_date_time_combination.2.1 "2025-12-12" (some "evening") ⟨2025, 12, 12⟩
      (by decide) (by decide),
   C9_date_time_combination.2.2.2.2 "Friday, December 12, 2025" "7:30 PM" ⟨2025, 12, 12, 0, 0⟩
      (by decide) (by decide) (by decide)⟩

/-- C10: every document a run adds to the events store satisfies the fee
invariant — free entry iff price indicator 0, empty fee list iff free, and a
paid document carries exactly one "General" line item; moreover the assembled
document's single line item carries the candidate's raw (stripped) fee text
as its amount, and the free flag is set exactly by the "free"-prefix-or-empty
test of the fee block. -/
theorem C10_fee_invariant :
    (∀ (failF : EventDoc → Bool) (now : Int) (url : String) (cs : List Candidate) (s : Store)
        (d : EventDoc), d ∈ (runListF failF now url cs s).2.1.events →
        d ∈ s.events ∨ feeInvariant d) ∧
    (∀ (f : Extracted) (vid : Nat) (su : Option String),
        (mkEventDoc f vid su).isFreeEntry = false →
        (mkEventDoc f vid su).entryFees = [⟨"General", f.feeText⟩]) ∧
    (∀ fee_text, (feeFields fee_text).1 = true ↔
        (startsWithS (lowerStr fee_text) "free" || fee_text == "") = true) := by
  refine ⟨?_, mkEventDoc_paid_fee, ?_⟩
  · intro failF now url cs s d hd
    exact runListF_mem_events failF now url cs s d hd
  · intro fee_text
    unfold feeFields
    split <;> simp_all

/-- C10 witness: the invariant instantiated at the document admitted by the
one-candidate run over `candNP` from the empty store. -/
theorem C10_fee_invariant_witness :
    docNP ∈ emptyStore.events ∨ feeInvariant docNP :=
  C10_fee_invariant.1 noFail 0 evUrl [candNP] emptyStore docNP (by decide)
